import Mathlib

/-!
Shallow embedding of the optimal-consumption solvers and plotting contract of
`optimal_consumption_app.py` and `cobb_douglas_app.py`, with theorems settling
the specification's claims.

The Python code computes with IEEE floats; here float arithmetic is idealised
as exact field arithmetic.  The Linear and Leontief solvers use only field
operations, `min`, `abs` and comparisons, so they are embedded over `ℚ`
(computable, decidable).  The Cobb–Douglas solver and the curve generator use
real-valued exponentiation (`x ** α` in Python), so they are embedded over `ℝ`
with `Real.rpow`.
-/

/-- Status flags of the solvers, as the Python strings `"single"`,
`"corner_x"`, `"corner_y"`, `"many"`. -/
inductive Status where
  | single
  | corner_x
  | corner_y
  | many
deriving DecidableEq, Repr

/-- The absolute tolerance `tol = 1e-9` used by `linear_opt` for the slope
comparison. -/
def tol : ℚ := 1 / 1000000000

/-- `cobb_douglas_opt(px, py, M, α, β)` from `optimal_consumption_app.py`:
`x = α/(α+β) * M/px`, `y = β/(α+β) * M/py`, `U = x**α * y**β`,
returned as the triple `(x, y, U)`. -/
noncomputable def cobb_douglas_opt (px py M a b : ℝ) : ℝ × ℝ × ℝ :=
  (a / (a + b) * M / px, b / (a + b) * M / py,
   (a / (a + b) * M / px) ^ a * (b / (a + b) * M / py) ^ b)

/-- `leontief_opt(px, py, M, α, β)` from `optimal_consumption_app.py`:
`k = α/β`, `x = M/(px + py*k)`, `y = k*x`, `U = min(α*x, β*y)`. -/
def leontief_opt (px py M a b : ℚ) : ℚ × ℚ × ℚ :=
  (M / (px + py * (a / b)),
   (a / b) * (M / (px + py * (a / b))),
   min (a * (M / (px + py * (a / b))))
     (b * ((a / b) * (M / (px + py * (a / b))))))

/-- `linear_opt(px, py, M, α, β)` from `optimal_consumption_app.py`:
compares `slope_IC = α/β` with `slope_BL = px/py` using absolute tolerance
`tol = 1e-9`; returns `(x, y, U, status)`. -/
def linear_opt (px py M a b : ℚ) : ℚ × ℚ × ℚ × Status :=
  if |a / b - px / py| < tol then
    (M / px / 2, M / py / 2, a * (M / px), Status.many)
  else if a / b > px / py then
    (M / px, 0, a * (M / px), Status.corner_x)
  else
    (0, M / py, b * (M / py), Status.corner_y)

/-- C1: For positive inputs the Cobb–Douglas solver returns the
expenditure-share bundle `x* = (α/(α+β))·M/px`, `y* = (β/(α+β))·M/py`, with
`U* = x*^α · y*^β`, and this bundle exhausts the budget:
`px·x* + py·y* = M`. -/
theorem cobb_douglas_opt_spec (px py M a b : ℝ) (hpx : 0 < px) (hpy : 0 < py)
    (hM : 0 < M) (ha : 0 < a) (hb : 0 < b) :
    (cobb_douglas_opt px py M a b).1 = a / (a + b) * M / px ∧
    (cobb_douglas_opt px py M a b).2.1 = b / (a + b) * M / py ∧
    (cobb_douglas_opt px py M a b).2.2 =
      (cobb_douglas_opt px py M a b).1 ^ a * (cobb_douglas_opt px py M a b).2.1 ^ b ∧
    px * (cobb_douglas_opt px py M a b).1 + py * (cobb_douglas_opt px py M a b).2.1 = M := by
  refine ⟨rfl, rfl, rfl, ?_⟩
  have hab : a + b ≠ 0 := by positivity
  field_simp [cobb_douglas_opt]
  ring

/-- C1 witness: Scenario 1, `M = 10`, `px = py = 1`, `α = β = 0.5` gives
`x* = 5`, `y* = 5`, `U* = 5^(1/2)·5^(1/2) = 5`, and the budget is exhausted. -/
theorem cobb_douglas_opt_spec_witness :
    ((0:ℝ) < 1 ∧ (0:ℝ) < 10 ∧ (0:ℝ) < 1/2) ∧
    (1 * (cobb_douglas_opt 1 1 10 (1/2) (1/2)).1 +
      1 * (cobb_douglas_opt 1 1 10 (1/2) (1/2)).2.1 = 10) ∧
    cobb_douglas_opt 1 1 10 (1/2) (1/2) = (5, 5, 5) := by
  refine ⟨⟨by norm_num, by norm_num, by norm_num⟩, ?_, ?_⟩
  · exact (cobb_douglas_opt_spec 1 1 10 (1/2) (1/2) (by norm_num) (by norm_num)
      (by norm_num) (by norm_num) (by norm_num)).2.2.2
  · have h5 : ((1:ℝ)/2) / (1/2 + 1/2) * 10 / 1 = 5 := by norm_num
    have hU : ((5:ℝ)) ^ ((1:ℝ)/2) * (5:ℝ) ^ ((1:ℝ)/2) = 5 := by
      rw [← Real.rpow_add (by norm_num : (0:ℝ) < 5)]
      norm_num
    unfold cobb_douglas_opt
    rw [h5, hU]

/-- C4: For positive inputs the Leontief solver returns, with `k = α/β`,
`x* = M/(px + py·k)`, `y* = k·x*`, `U* = min(α·x*, β·y*)`; the solution
satisfies `α·x* = β·y*` exactly and exhausts the budget. -/
theorem leontief_opt_spec (px py M a b : ℚ) (hpx : 0 < px) (hpy : 0 < py)
    (hM : 0 < M) (ha : 0 < a) (hb : 0 < b) :
    (leontief_opt px py M a b).1 = M / (px + py * (a / b)) ∧
    (leontief_opt px py M a b).2.1 = (a / b) * (leontief_opt px py M a b).1 ∧
    (leontief_opt px py M a b).2.2 =
      min (a * (leontief_opt px py M a b).1) (b * (leontief_opt px py M a b).2.1) ∧
    a * (leontief_opt px py M a b).1 = b * (leontief_opt px py M a b).2.1 ∧
    px * (leontief_opt px py M a b).1 + py * (leontief_opt px py M a b).2.1 = M := by
  have hD : px + py * (a / b) ≠ 0 := by positivity
  refine ⟨rfl, rfl, rfl, ?_, ?_⟩
  · unfold leontief_opt
    field_simp
    ring
  · unfold leontief_opt
    field_simp
    ring

/-- C4 witness: Scenario 2, `M = 10`, `px = py = 1`, `α = β = 1` gives
`x* = 5`, `y* = 5`, `U* = 5`, with `α·x* = β·y*` and the budget exhausted. -/
theorem leontief_opt_spec_witness :
    ((0:ℚ) < 1 ∧ (0:ℚ) < 10) ∧
    (1 * (leontief_opt 1 1 10 1 1).1 = 1 * (leontief_opt 1 1 10 1 1).2.1 ∧
      1 * (leontief_opt 1 1 10 1 1).1 + 1 * (leontief_opt 1 1 10 1 1).2.1 = 10) ∧
    leontief_opt 1 1 10 1 1 = (5, 5, 5) := by
  refine ⟨⟨by norm_num, by norm_num⟩, ?_, by norm_num [leontief_opt]⟩
  have h := leontief_opt_spec 1 1 10 1 1 (by norm_num) (by norm_num) (by norm_num)
    (by norm_num) (by norm_num)
  exact ⟨h.2.2.2.1, h.2.2.2.2⟩

/-- C2: Under the slope-tie condition `|α/β − px/py| < 1e-9` the Linear solver
returns status `many` (Indeterminate), the midpoint bundle
`(M/px/2, M/py/2)` and utility `α·(M/px)`. -/
theorem linear_opt_tie (px py M a b : ℚ) (hpx : 0 < px) (hpy : 0 < py)
    (hM : 0 < M) (ha : 0 < a) (hb : 0 < b)
    (htie : |a / b - px / py| < tol) :
    linear_opt px py M a b = (M / px / 2, M / py / 2, a * (M / px), Status.many) := by
  unfold linear_opt
  rw [if_pos htie]

/-- C2 witness: Scenario 4, `M = 10`, `px = py = 1`, `α = β = 1` is a tie and
returns `Indeterminate` with bundle `(5, 5)` and `U* = 10`. -/
theorem linear_opt_tie_witness :
    (|(1:ℚ) / 1 - 1 / 1| < tol) ∧
    linear_opt 1 1 10 1 1 = (5, 5, 10, Status.many) := by
  refine ⟨by norm_num [tol], ?_⟩
  rw [linear_opt_tie 1 1 10 1 1 (by norm_num) (by norm_num) (by norm_num)
    (by norm_num) (by norm_num) (by norm_num [tol])]
  norm_num

/-- C3: Away from the tie (`|α/β − px/py| ≥ 1e-9`) the Linear solver returns a
corner: if `α/β > px/py` it spends the budget on X (`corner_x`), otherwise on
Y (`corner_y`); exactly one coordinate of the bundle is zero and the budget is
exhausted. -/
theorem linear_opt_corner (px py M a b : ℚ) (hpx : 0 < px) (hpy : 0 < py)
    (hM : 0 < M) (ha : 0 < a) (hb : 0 < b)
    (hne : tol ≤ |a / b - px / py|) :
    ((a / b > px / py →
        linear_opt px py M a b = (M / px, 0, a * (M / px), Status.corner_x)) ∧
      (¬ a / b > px / py →
        linear_opt px py M a b = (0, M / py, b * (M / py), Status.corner_y))) ∧
    (((linear_opt px py M a b).1 = 0 ∧ (linear_opt px py M a b).2.1 ≠ 0) ∨
      ((linear_opt px py M a b).1 ≠ 0 ∧ (linear_opt px py M a b).2.1 = 0)) ∧
    px * (linear_opt px py M a b).1 + py * (linear_opt px py M a b).2.1 = M := by
  have hnt : ¬ |a / b - px / py| < tol := not_lt.2 hne
  unfold linear_opt
  rw [if_neg hnt]
  by_cases h : a / b > px / py
  · rw [if_pos h]
    refine ⟨⟨fun _ => rfl, fun h' => absurd h h'⟩, Or.inr ⟨?_, rfl⟩, ?_⟩
    · exact div_ne_zero hM.ne' hpx.ne'
    · field_simp
  · rw [if_neg h]
    refine ⟨⟨fun h' => absurd h' h, fun _ => rfl⟩, Or.inl ⟨rfl, ?_⟩, ?_⟩
    · exact div_ne_zero hM.ne' hpy.ne'
    · field_simp

/-- C3 witness: Scenario 3, `M = 10`, `px = 1`, `py = 2`, `α = β = 1`:
`α/β = 1 > 1/2 = px/py`, so the solver returns `(10, 0, 10, corner_x)`. -/
theorem linear_opt_corner_witness :
    (tol ≤ |(1:ℚ) / 1 - 1 / 2|) ∧
    linear_opt 1 2 10 1 1 = (10, 0, 10, Status.corner_x) := by
  have habs : |(1:ℚ) / 1 - 1 / 2| = 1 / 2 := by
    rw [show (1:ℚ) / 1 - 1 / 2 = 1 / 2 by norm_num, abs_of_pos (by norm_num)]
  have hne : tol ≤ |(1:ℚ) / 1 - 1 / 2| := by rw [habs]; norm_num [tol]
  refine ⟨hne, ?_⟩
  have h := (linear_opt_corner 1 2 10 1 1 (by norm_num) (by norm_num) (by norm_num)
    (by norm_num) (by norm_num) hne).1.1 (by norm_num)
  rw [h]
  norm_num

/-- C6: With prices and parameters fixed and positive, the achieved optimum
utility is strictly increasing in the budget for all three families
(for Linear, outside the slope-tie case). -/
theorem utility_monotone_in_budget :
    (∀ px py a b M₁ M₂ : ℝ, 0 < px → 0 < py → 0 < a → 0 < b → 0 < M₁ → M₁ < M₂ →
      (cobb_douglas_opt px py M₁ a b).2.2 < (cobb_douglas_opt px py M₂ a b).2.2) ∧
    (∀ px py a b M₁ M₂ : ℚ, 0 < px → 0 < py → 0 < a → 0 < b → 0 < M₁ → M₁ < M₂ →
      (leontief_opt px py M₁ a b).2.2 < (leontief_opt px py M₂ a b).2.2) ∧
    (∀ px py a b M₁ M₂ : ℚ, 0 < px → 0 < py → 0 < a → 0 < b → 0 < M₁ → M₁ < M₂ →
      ¬ |a / b - px / py| < tol →
      (linear_opt px py M₁ a b).2.2.1 < (linear_opt px py M₂ a b).2.2.1) := by
  refine ⟨?_, ?_, ?_⟩
  · intro px py a b M₁ M₂ hpx hpy ha hb hM₁ hlt
    unfold cobb_douglas_opt
    have hx₁ : (0:ℝ) < a / (a + b) * M₁ / px := by positivity
    have hy₁ : (0:ℝ) < b / (a + b) * M₁ / py := by positivity
    have hx₂ : a / (a + b) * M₁ / px < a / (a + b) * M₂ / px := by gcongr
    have hy₂ : b / (a + b) * M₁ / py < b / (a + b) * M₂ / py := by gcongr
    exact mul_lt_mul (Real.rpow_lt_rpow hx₁.le hx₂ ha)
      (Real.rpow_lt_rpow hy₁.le hy₂ hb).le
      (Real.rpow_pos_of_pos hy₁ b)
      (Real.rpow_pos_of_pos (hx₁.trans hx₂) a).le
  · intro px py a b M₁ M₂ hpx hpy ha hb hM₁ hlt
    have hD : (0:ℚ) < px + py * (a / b) := by positivity
    have hU : ∀ M : ℚ, b * ((a / b) * (M / (px + py * (a / b)))) =
        a * (M / (px + py * (a / b))) := by
      intro M
      field_simp
      ring
    simp only [leontief_opt]
    rw [hU M₁, hU M₂, min_self, min_self]
    exact mul_lt_mul_of_pos_left ((div_lt_div_right hD).2 hlt) ha
  · intro px py a b M₁ M₂ hpx hpy ha hb hM₁ hlt hnt
    simp only [linear_opt, if_neg hnt]
    by_cases h : a / b > px / py
    · simp only [if_pos h]
      exact mul_lt_mul_of_pos_left ((div_lt_div_right hpx).2 hlt) ha
    · simp only [if_neg h]
      exact mul_lt_mul_of_pos_left ((div_lt_div_right hpy).2 hlt) hb

/-- C6 witness: concrete strict increases for each family (budget 1 → 2 for
Cobb–Douglas, 10 → 20 for Leontief and for a non-tie Linear instance). -/
theorem utility_monotone_in_budget_witness :
    (cobb_douglas_opt 1 1 1 1 1).2.2 < (cobb_douglas_opt 1 1 2 1 1).2.2 ∧
    (leontief_opt 1 1 10 1 1).2.2 < (leontief_opt 1 1 20 1 1).2.2 ∧
    (linear_opt 1 1 10 2 1).2.2.1 < (linear_opt 1 1 20 2 1).2.2.1 := by
  refine ⟨?_, ?_, ?_⟩
  · exact utility_monotone_in_budget.1 1 1 1 1 1 2 (by norm_num) (by norm_num)
      (by norm_num) (by norm_num) (by norm_num) (by norm_num)
  · exact utility_monotone_in_budget.2.1 1 1 1 1 10 20 (by norm_num) (by norm_num)
      (by norm_num) (by norm_num) (by norm_num) (by norm_num)
  · have hnt : ¬ |(2:ℚ) / 1 - 1 / 1| < tol := by
      rw [show (2:ℚ) / 1 - 1 / 1 = 1 by norm_num, abs_one]
      norm_num [tol]
    exact utility_monotone_in_budget.2.2 1 1 2 1 10 20 (by norm_num) (by norm_num)
      (by norm_num) (by norm_num) (by norm_num) (by norm_num) hnt

/-- C5 counterexample: with `px = 1`, `py = 1 + 1e-10`, `M = 10`, `α = β = 1`
the slope-tie condition holds (status `many`), yet the returned utility
`α·(M/px)` is not exactly equal to `β·(M/py)`. -/
theorem linear_tie_exact_equality_cex :
    (|(1:ℚ) / 1 - 1 / (10000000001 / 10000000000)| < tol ∧
      (linear_opt 1 (10000000001 / 10000000000) 10 1 1).2.2.2 = Status.many) ∧
    (linear_opt 1 (10000000001 / 10000000000) 10 1 1).2.2.1 ≠
      1 * (10 / (10000000001 / 10000000000 : ℚ)) := by
  have hc : |(1:ℚ) / 1 - 1 / (10000000001 / 10000000000)| < tol := by
    rw [show (1:ℚ) / 1 - 1 / (10000000001 / 10000000000) = 1 / 10000000001 by norm_num,
      abs_of_pos (by norm_num)]
    norm_num [tol]
  refine ⟨⟨hc, ?_⟩, ?_⟩
  · simp only [linear_opt, if_pos hc]
  · simp only [linear_opt, if_pos hc]
    norm_num

/-- C5 (amended): under the slope tie, any two feasible bundles on the budget
line have utilities within `β·(M/px)·1e-9` of each other, and the returned
utility `α·(M/px)` equals `β·(M/py)` within the same bound. -/
theorem linear_tie_utility_bound (px py M a b x₁ y₁ x₂ y₂ : ℚ)
    (hpx : 0 < px) (hpy : 0 < py) (hM : 0 < M) (ha : 0 < a) (hb : 0 < b)
    (htie : |a / b - px / py| < tol)
    (hx₁ : 0 ≤ x₁) (hy₁ : 0 ≤ y₁) (hbud₁ : px * x₁ + py * y₁ = M)
    (hx₂ : 0 ≤ x₂) (hy₂ : 0 ≤ y₂) (hbud₂ : px * x₂ + py * y₂ = M) :
    |(a * x₁ + b * y₁) - (a * x₂ + b * y₂)| ≤ b * (M / px) * tol ∧
    |(linear_opt px py M a b).2.2.1 - b * (M / py)| ≤ b * (M / px) * tol := by
  have general : ∀ u₁ v₁ u₂ v₂ : ℚ, 0 ≤ u₁ → 0 ≤ v₁ → px * u₁ + py * v₁ = M →
      0 ≤ u₂ → 0 ≤ v₂ → px * u₂ + py * v₂ = M →
      |(a * u₁ + b * v₁) - (a * u₂ + b * v₂)| ≤ b * (M / px) * tol := by
    intro u₁ v₁ u₂ v₂ hu₁ hv₁ hB₁ hu₂ hv₂ hB₂
    have key : (a * u₁ + b * v₁) - (a * u₂ + b * v₂) =
        b * (a / b - px / py) * (u₁ - u₂) := by
      have hsub : v₁ - v₂ = (px * u₂ - px * u₁) / py := by
        rw [eq_div_iff hpy.ne']
        linarith
      have expand : (a * u₁ + b * v₁) - (a * u₂ + b * v₂) =
          a * (u₁ - u₂) + b * (v₁ - v₂) := by ring
      rw [expand, hsub]
      field_simp
      ring
    have hub₁ : u₁ ≤ M / px := by
      rw [le_div_iff hpx]
      nlinarith [mul_nonneg hpy.le hv₁]
    have hub₂ : u₂ ≤ M / px := by
      rw [le_div_iff hpx]
      nlinarith [mul_nonneg hpy.le hv₂]
    have habs : |u₁ - u₂| ≤ M / px := abs_sub_le_iff.2 ⟨by linarith, by linarith⟩
    rw [key, abs_mul, abs_mul, abs_of_pos hb]
    have h1 : |a / b - px / py| * |u₁ - u₂| ≤ tol * (M / px) :=
      mul_le_mul htie.le habs (abs_nonneg _) (by norm_num [tol])
    calc b * |a / b - px / py| * |u₁ - u₂|
        = b * (|a / b - px / py| * |u₁ - u₂|) := by ring
      _ ≤ b * (tol * (M / px)) := mul_le_mul_of_nonneg_left h1 hb.le
      _ = b * (M / px) * tol := by ring
  refine ⟨general x₁ y₁ x₂ y₂ hx₁ hy₁ hbud₁ hx₂ hy₂ hbud₂, ?_⟩
  have hret : (linear_opt px py M a b).2.2.1 = a * (M / px) := by
    simp only [linear_opt, if_pos htie]
  rw [hret]
  have hcorner := general (M / px) 0 0 (M / py) (by positivity) le_rfl
    (by field_simp) le_rfl (by positivity) (by field_simp)
  simpa using hcorner

/-- C5 witness: Scenario-4 data (`M = 10`, `px = py = 1`, `α = β = 1`) with
the feasible bundles `(10, 0)` and `(0, 10)` on the budget line. -/
theorem linear_tie_utility_bound_witness :
    (|(1:ℚ) / 1 - 1 / 1| < tol ∧ (1:ℚ) * 10 + 1 * 0 = 10 ∧ (1:ℚ) * 0 + 1 * 10 = 10) ∧
    |((1:ℚ) * 10 + 1 * 0) - (1 * 0 + 1 * 10)| ≤ 1 * ((10:ℚ) / 1) * tol ∧
    |(linear_opt 1 1 10 1 1).2.2.1 - 1 * ((10:ℚ) / 1)| ≤ 1 * ((10:ℚ) / 1) * tol := by
  refine ⟨⟨by norm_num [tol], by norm_num, by norm_num⟩, ?_⟩
  exact linear_tie_utility_bound 1 1 10 1 1 10 0 0 10 (by norm_num) (by norm_num)
    (by norm_num) (by norm_num) (by norm_num) (by norm_num [tol]) (by norm_num)
    (by norm_num) (by norm_num) (by norm_num) (by norm_num) (by norm_num)

/-- C10: Demand is homogeneous of degree zero: scaling the budget and both
prices by `t > 0` leaves each solver's output (bundle, utility and status)
unchanged. -/
theorem solvers_homogeneous_degree_zero :
    (∀ t px py M a b : ℝ, 0 < t → 0 < px → 0 < py → 0 < M → 0 < a → 0 < b →
      cobb_douglas_opt (t * px) (t * py) (t * M) a b = cobb_douglas_opt px py M a b) ∧
    (∀ t px py M a b : ℚ, 0 < t → 0 < px → 0 < py → 0 < M → 0 < a → 0 < b →
      leontief_opt (t * px) (t * py) (t * M) a b = leontief_opt px py M a b) ∧
    (∀ t px py M a b : ℚ, 0 < t → 0 < px → 0 < py → 0 < M → 0 < a → 0 < b →
      linear_opt (t * px) (t * py) (t * M) a b = linear_opt px py M a b) := by
  refine ⟨?_, ?_, ?_⟩
  · intro t px py M a b ht hpx hpy hM ha hb
    have hab : a + b ≠ 0 := by positivity
    have hx : a / (a + b) * (t * M) / (t * px) = a / (a + b) * M / px := by
      field_simp
      ring
    have hy : b / (a + b) * (t * M) / (t * py) = b / (a + b) * M / py := by
      field_simp
      ring
    unfold cobb_douglas_opt
    rw [hx, hy]
  · intro t px py M a b ht hpx hpy hM ha hb
    have ht' : t ≠ 0 := ht.ne'
    have hden : px + py * (a / b) ≠ 0 := by positivity
    have hD : t * M / (t * px + t * py * (a / b)) = M / (px + py * (a / b)) := by
      rw [show t * px + t * py * (a / b) = t * (px + py * (a / b)) by ring]
      field_simp
      ring
    unfold leontief_opt
    rw [hD]
  · intro t px py M a b ht hpx hpy hM ha hb
    have ht' : t ≠ 0 := ht.ne'
    have hpx' : px ≠ 0 := hpx.ne'
    have hpy' : py ≠ 0 := hpy.ne'
    have hsl : t * px / (t * py) = px / py := by
      field_simp
      ring
    have hx : t * M / (t * px) = M / px := by
      field_simp
      ring
    have hy : t * M / (t * py) = M / py := by
      field_simp
      ring
    unfold linear_opt
    rw [hsl, hx, hy]

/-- C10 witness: doubling budget and prices at Scenario data leaves every
solver output unchanged. -/
theorem solvers_homogeneous_degree_zero_witness :
    cobb_douglas_opt (2 * 1) (2 * 1) (2 * 10) (1/2) (1/2) =
      cobb_douglas_opt 1 1 10 (1/2) (1/2) ∧
    leontief_opt (2 * 1) (2 * 1) (2 * 10) 1 1 = leontief_opt 1 1 10 1 1 ∧
    linear_opt (2 * 1) (2 * 2) (2 * 10) 1 1 = linear_opt 1 2 10 1 1 := by
  refine ⟨?_, ?_, ?_⟩
  · exact solvers_homogeneous_degree_zero.1 2 1 1 10 (1/2) (1/2) (by norm_num)
      (by norm_num) (by norm_num) (by norm_num) (by norm_num) (by norm_num)
  · exact solvers_homogeneous_degree_zero.2.1 2 1 1 10 1 1 (by norm_num)
      (by norm_num) (by norm_num) (by norm_num) (by norm_num) (by norm_num)
  · exact solvers_homogeneous_degree_zero.2.2 2 1 2 10 1 1 (by norm_num)
      (by norm_num) (by norm_num) (by norm_num) (by norm_num) (by norm_num)

/-- `np.linspace(a, b, n)`: `n` evenly spaced samples from `a` to `b`
inclusive, sample `i` being `a + (b - a)·i/(n-1)`. -/
def linspace (a b : ℚ) (n : ℕ) : List ℚ :=
  (List.range n).map fun i : ℕ => a + (b - a) * (i : ℚ) / ((n : ℚ) - 1)

/-- The x-sampling of the Cobb–Douglas indifference curve in
`plot_budget_and_ic`: `np.linspace(max(1e-6, x_max * 0.01), x_max, 400)`
with `x_max = M/px`. -/
def cd_sample_xs (M px : ℚ) : List ℚ :=
  linspace (max (1 / 1000000) (M / px * (1 / 100))) (M / px) 400

open Classical in
/-- The drawn Cobb–Douglas indifference-curve points of `plot_budget_and_ic`:
`ys = (U_star / xs**alpha)**(1/beta)` with the mask
`(ys >= 0) & (ys <= y_max)`, `y_max = M/py`. -/
noncomputable def cd_curve_points (M px py : ℚ) (a b Ustar : ℝ) : List (ℝ × ℝ) :=
  ((cd_sample_xs M px).map fun xq =>
      ((xq : ℝ), (Ustar / (xq : ℝ) ^ a) ^ ((1 : ℝ) / b))).filter
    fun p => decide (0 ≤ p.2 ∧ p.2 ≤ ((M / py : ℚ) : ℝ))

/-- Every sample of a `linspace` between two positive endpoints is positive
(each sample is a convex combination of the endpoints). -/
theorem linspace_pos (a b : ℚ) (ha : 0 < a) (hb : 0 < b) :
    ∀ x ∈ linspace a b 400, 0 < x := by
  intro x hx
  unfold linspace at hx
  rcases List.mem_map.1 hx with ⟨i, hi, rfl⟩
  have hi' : i < 400 := List.mem_range.1 hi
  have h0 : (0 : ℚ) ≤ (i : ℚ) := Nat.cast_nonneg i
  have h1 : (i : ℚ) ≤ 399 := by exact_mod_cast Nat.lt_succ_iff.1 hi'
  have h399 : ((400 : ℕ) : ℚ) - 1 = 399 := by norm_num
  rw [h399, mul_div_assoc]
  have ht0 : (0 : ℚ) ≤ (i : ℚ) / 399 := by positivity
  have ht1 : (i : ℚ) / 399 ≤ 1 := by
    rw [div_le_one (by norm_num : (0:ℚ) < 399)]
    exact h1
  rcases le_total a b with hab | hab
  · nlinarith [mul_nonneg (sub_nonneg.2 hab) ht0]
  · nlinarith [mul_nonneg (sub_nonneg.2 hab) (sub_nonneg.2 ht1)]

/-- C7: The Cobb–Douglas plotting x-domain starts at `max(1e-6, 0.01·x_max)`,
every sampled `x` is strictly positive (so `y = (U*/x^α)^(1/β)` is never
evaluated at `x = 0`), and every drawn point satisfies `0 ≤ y ≤ y_max`. -/
theorem cd_sampling_safe (M px py : ℚ) (a b Ustar : ℝ)
    (hM : 0 < M) (hpx : 0 < px) (hpy : 0 < py) :
    (cd_sample_xs M px).head? = some (max (1 / 1000000) (M / px * (1 / 100))) ∧
    (∀ x ∈ cd_sample_xs M px, 0 < x) ∧
    (∀ p ∈ cd_curve_points M px py a b Ustar,
      0 ≤ p.2 ∧ p.2 ≤ ((M / py : ℚ) : ℝ)) := by
  refine ⟨?_, ?_, ?_⟩
  · unfold cd_sample_xs linspace
    rw [List.head?_map, show (List.range 400).head? = some 0 by decide]
    simp
  · intro x hx
    have hxmax : (0 : ℚ) < M / px := by positivity
    have hstart : (0 : ℚ) < max (1 / 1000000) (M / px * (1 / 100)) :=
      lt_max_of_lt_left (by norm_num)
    exact linspace_pos _ _ hstart hxmax x hx
  · intro p hp
    unfold cd_curve_points at hp
    exact of_decide_eq_true (List.mem_filter.1 hp).2

/-- C7 witness: at `M = 10`, `px = py = 1`, the sampling starts at the
positive value `max(1e-6, 0.1)`. -/
theorem cd_sampling_safe_witness :
    ((0:ℚ) < 10 ∧ (0:ℚ) < 1) ∧
    (cd_sample_xs 10 1).head? = some (max (1 / 1000000) (10 / 1 * (1 / 100))) :=
  ⟨⟨by norm_num, by norm_num⟩,
    (cd_sampling_safe 10 1 1 (1/2) (1/2) 5 (by norm_num) (by norm_num)
      (by norm_num)).1⟩

/-- The optimal-point marker decision of `plot_budget_and_ic`: the marker and
its coordinate label are emitted only when `status_flag != "many"`. -/
def optimal_marker (statusFlag : Status) (xStar yStar : ℚ) : Option (ℚ × ℚ) :=
  if statusFlag ≠ Status.many then some (xStar, yStar) else none

/-- C8: The optimal-point marker is drawn if and only if the status is not
`many` (Indeterminate): `single`, `corner_x` and `corner_y` draw the marker at
`(x*, y*)`; `many` suppresses it. -/
theorem optimal_marker_spec (s : Status) (x y : ℚ) :
    ((optimal_marker s x y).isSome ↔ s ≠ Status.many) ∧
    (s ≠ Status.many → optimal_marker s x y = some (x, y)) ∧
    (optimal_marker Status.single x y = some (x, y) ∧
      optimal_marker Status.corner_x x y = some (x, y) ∧
      optimal_marker Status.corner_y x y = some (x, y) ∧
      optimal_marker Status.many x y = none) := by
  unfold optimal_marker
  cases s <;> simp

/-- C8 witness: at status `corner_x` the marker is drawn at the optimum, and
at `many` it is suppressed. -/
theorem optimal_marker_spec_witness :
    optimal_marker Status.corner_x 3 4 = some (3, 4) ∧
    optimal_marker Status.many 3 4 = none :=
  ⟨(optimal_marker_spec Status.corner_x 3 4).2.1 (by decide),
    (optimal_marker_spec Status.many 3 4).2.2.2.2.2⟩

/-- `x_ref = 5`, the fixed anchor of `cobb_douglas_app.py`. -/
def x_ref : ℝ := 5

/-- `y_refs = [1, 2, 3, 4, 5, 6, 7]`, the anchor y values of
`cobb_douglas_app.py`. -/
def y_refs : List ℝ := [1, 2, 3, 4, 5, 6, 7]

/-- `U_levels = x_ref ** alpha * y_refs ** beta` from `cobb_douglas_app.py`:
one utility level per anchor point. -/
noncomputable def U_levels (a b : ℝ) : List ℝ :=
  y_refs.map fun y => x_ref ^ a * y ^ b

/-- The two-decimal display of a utility value, as in the label format
`"(5,{int(y_val)}): U={u_val:.2f}"`: the integer of hundredths shown. -/
noncomputable def label_hundredths (u : ℝ) : ℤ := round (100 * u)

/-- The labelled markers of `cobb_douglas_app.py`: one per anchor, carrying
the anchor coordinates `(x_ref, y_val)` and the displayed utility value. -/
noncomputable def label_data (a b : ℝ) : List ((ℝ × ℝ) × ℤ) :=
  (y_refs.zip (U_levels a b)).map fun p => ((x_ref, p.1), label_hundredths p.2)

/-- `5^(1/2) · 3^(1/2) = √15`. -/
theorem rpow_half_five_three : (5:ℝ) ^ ((1:ℝ)/2) * (3:ℝ) ^ ((1:ℝ)/2) = Real.sqrt 15 := by
  rw [← Real.sqrt_eq_rpow, ← Real.sqrt_eq_rpow,
    ← Real.sqrt_mul (by norm_num : (0:ℝ) ≤ 5)]
  norm_num

/-- `√15 ≈ 3.8729…` displays as `3.87` to the hundredths place. -/
theorem label_hundredths_sqrt15 : label_hundredths (Real.sqrt 15) = 387 := by
  have hs : Real.sqrt 15 * Real.sqrt 15 = 15 := Real.mul_self_sqrt (by norm_num)
  have hnn : (0:ℝ) ≤ Real.sqrt 15 := Real.sqrt_nonneg _
  have hlb : (3.87:ℝ) ≤ Real.sqrt 15 := by nlinarith
  have hub : Real.sqrt 15 < 3.875 := by nlinarith
  unfold label_hundredths
  rw [round_eq]
  apply Int.floor_eq_iff.2
  constructor
  · push_cast
    nlinarith
  · push_cast
    nlinarith

/-- C9: The viewer computes one utility level `x_ref^α · y_ref^β` per anchor
`y_ref ∈ {1,…,7}` at `x_ref = 5`; each label pairs the anchor coordinates with
the utility value to the hundredths place; with `α = β = 0.5` the anchor
`y_ref = 3` (index 2) has level `5^0.5 · 3^0.5 = √15`, displayed as `3.87`. -/
theorem viewer_levels_spec :
    (∀ a b : ℝ, U_levels a b =
      [x_ref ^ a * (1:ℝ) ^ b, x_ref ^ a * (2:ℝ) ^ b, x_ref ^ a * (3:ℝ) ^ b,
       x_ref ^ a * (4:ℝ) ^ b, x_ref ^ a * (5:ℝ) ^ b, x_ref ^ a * (6:ℝ) ^ b,
       x_ref ^ a * (7:ℝ) ^ b]) ∧
    (U_levels (1/2) (1/2))[2]? = some (Real.sqrt 15) ∧
    (label_data (1/2) (1/2))[2]? = some ((5, 3), 387) := by
  refine ⟨fun a b => rfl, ?_, ?_⟩
  · simp only [U_levels, y_refs, x_ref, List.map_cons, List.getElem?_cons_succ,
      List.getElem?_cons_zero]
    rw [rpow_half_five_three]
  · simp only [label_data, U_levels, y_refs, x_ref, List.map_cons,
      List.zip_cons_cons, List.getElem?_cons_succ, List.getElem?_cons_zero]
    rw [rpow_half_five_three, label_hundredths_sqrt15]

/-- C9 witness: the level list at `α = β = 1` instantiates the per-anchor
formula. -/
theorem viewer_levels_spec_witness :
    U_levels 1 1 =
      [x_ref ^ (1:ℝ) * (1:ℝ) ^ (1:ℝ), x_ref ^ (1:ℝ) * (2:ℝ) ^ (1:ℝ),
       x_ref ^ (1:ℝ) * (3:ℝ) ^ (1:ℝ), x_ref ^ (1:ℝ) * (4:ℝ) ^ (1:ℝ),
       x_ref ^ (1:ℝ) * (5:ℝ) ^ (1:ℝ), x_ref ^ (1:ℝ) * (6:ℝ) ^ (1:ℝ),
       x_ref ^ (1:ℝ) * (7:ℝ) ^ (1:ℝ)] :=
  viewer_levels_spec.1 1 1
